import Mathlib

/-!
Verification development for the thermometer-puzzle encoder (`encode.py`).

The Python source is shallowly embedded: grids are lists of rows
(lists of characters), the mutable `visited` 2-D boolean array becomes an
explicit list of visited coordinates, Python exceptions become an
`Except` error type, and the unbounded `while True` walk loop becomes a
fuel-indexed recursion (a separate theorem shows that fuel equal to the
grid side length always suffices, which is the termination argument of
the original loop).
-/

namespace ThermoEnc

/-- Coordinate (row, col) in the grid. -/
abbrev Coord := Nat × Nat

/-- Thermometer cell entry: (1-based ordinal index, row, col), mirroring the
Python tuples `(index, row, col)`. -/
abbrev Cell := Nat × Nat × Nat

/-- Membership in `ALLOWED_CHARS = set("UDRL^v><")`. -/
def ALLOWED (ch : Char) : Bool :=
  ch = 'U' || ch = 'D' || ch = 'R' || ch = 'L' ||
  ch = '^' || ch = 'v' || ch = '>' || ch = '<'

/-- Membership in `BULBS = set("UDRL")`. -/
def isBulb (ch : Char) : Bool :=
  ch = 'U' || ch = 'D' || ch = 'R' || ch = 'L'

/-- The lookup `DIRECTION_DELTAS.get(ch)`: row/column step for each symbol,
`none` for characters outside the table. -/
def delta? (ch : Char) : Option (Int × Int) :=
  if ch = 'U' || ch = '^' then some (-1, 0)
  else if ch = 'D' || ch = 'v' then some (1, 0)
  else if ch = 'R' || ch = '>' then some (0, 1)
  else if ch = 'L' || ch = '<' then some (0, -1)
  else none

/-- The lookup `DIRECTION_NAMES.get(ch)`: readable orientation label. -/
def dirName? (ch : Char) : Option String :=
  if ch = 'U' || ch = '^' then some "up"
  else if ch = 'D' || ch = 'v' then some "down"
  else if ch = 'R' || ch = '>' then some "right"
  else if ch = 'L' || ch = '<' then some "left"
  else none

/-- Inverse view of the two tables: the step vector that belongs to a
direction name (used to state properties about a `Thermometer.direction`). -/
def nameDelta (s : String) : Option (Int × Int) :=
  if s = "up" then some (-1, 0)
  else if s = "down" then some (1, 0)
  else if s = "right" then some (0, 1)
  else if s = "left" then some (0, -1)
  else none

/-- The four step vectors appearing in `DIRECTION_DELTAS`. -/
def DELTAS : List (Int × Int) := [(-1, 0), (1, 0), (0, 1), (0, -1)]

/-- Grid access `grid[row][col]` (guarded by bounds checks at every call
site in the source; out-of-range access returns a junk blank). -/
def gget (g : List (List Char)) (r c : Nat) : Char :=
  (g.getD r []).getD c ' '

/-- Representation of a single thermometer (the `Thermometer` dataclass). -/
structure Thermometer where
  bulb_row : Nat
  bulb_col : Nat
  direction : String
  cells : List Cell
deriving DecidableEq

/-- Errors raised by `extract_thermometers` (Python `ValueError`s), plus a
`fuelExhausted` marker for the fuel-indexed embedding of the `while True`
loop; theorems below show `fuelExhausted` is never produced. -/
inductive ExtractError where
  | overlapping (r c : Nat)
  | uncovered (r c : Nat)
  | fuelExhausted
deriving DecidableEq

/-- The inner `while True` walk of `extract_thermometers`, lines 158-179 of
the source: check the overlap marker, mark the current cell visited, append
it with its ordinal index, then stop at the grid edge, before another bulb,
or before a symbol whose direction differs; otherwise advance one step. -/
def walkAux (g : List (List Char)) (size : Nat) (d : Int × Int) :
    Nat → List Coord → Nat → Nat → Nat → List Cell →
    Except ExtractError (List Cell × List Coord)
  | 0, _, _, _, _, _ => .error .fuelExhausted
  | fuel + 1, visited, r, c, index, cells =>
    if (r, c) ∈ visited then .error (.overlapping r c)
    else
      let visited2 := (r, c) :: visited
      let cells2 := cells ++ [(index, r, c)]
      let nr : Int := (r : Int) + d.1
      let nc : Int := (c : Int) + d.2
      if 0 ≤ nr ∧ nr < (size : Int) ∧ 0 ≤ nc ∧ nc < (size : Int) then
        let ch := gget g nr.toNat nc.toNat
        if isBulb ch then .ok (cells2, visited2)
        else if delta? ch = some d then
          walkAux g size d fuel visited2 nr.toNat nc.toNat (index + 1) cells2
        else .ok (cells2, visited2)
      else .ok (cells2, visited2)

/-- Body of the outer scan of `extract_thermometers` for one cell: on an
unvisited bulb, walk the thermometer and append it to the list. -/
def processCell (g : List (List Char)) (size : Nat)
    (st : List Thermometer × List Coord) (p : Coord) :
    Except ExtractError (List Thermometer × List Coord) :=
  let ch := gget g p.1 p.2
  if isBulb ch ∧ (p.1, p.2) ∉ st.2 then
    let d := (delta? ch).getD (0, 0)
    let name := (dirName? ch).getD ""
    match walkAux g size d size st.2 p.1 p.2 1 [] with
    | .error e => .error e
    | .ok (cells, visited2) =>
      .ok (st.1 ++ [⟨p.1, p.2, name, cells⟩], visited2)
  else .ok st

/-- Row-major enumeration of all coordinates of an n×n grid, matching the
nested `for row in range(size): for col in range(size)` loops. -/
def rowMajor (size : Nat) : List Coord :=
  (List.range size).flatMap (fun r => (List.range size).map (fun c => (r, c)))

/-- The outer double loop of `extract_thermometers` (lines 148-188),
expressed as recursion over the row-major coordinate list. -/
def scanAux (g : List (List Char)) (size : Nat) :
    List Coord → List Thermometer × List Coord →
    Except ExtractError (List Thermometer × List Coord)
  | [], st => .ok st
  | p :: rest, st =>
    match processCell g size st p with
    | .error e => .error e
    | .ok st2 => scanAux g size rest st2

/-- The final coverage re-scan of `extract_thermometers` (lines 190-196):
fail at the first cell, in row-major order, that was never visited. -/
def coverAux (visited : List Coord) : List Coord → Except ExtractError Unit
  | [] => .ok ()
  | p :: rest =>
    if p ∈ visited then coverAux visited rest
    else .error (.uncovered p.1 p.2)

/-- The bulb-processing phase of `extract_thermometers`: both nested loops,
run from the all-unvisited initial state. -/
def scanPhase (g : List (List Char)) :
    Except ExtractError (List Thermometer × List Coord) :=
  scanAux g g.length (rowMajor g.length) ([], [])

/-- Embedding of `extract_thermometers`: run the bulb scan, then the
coverage re-scan, then return the thermometer list. -/
def extract_thermometers (g : List (List Char)) :
    Except ExtractError (List Thermometer) :=
  match scanPhase g with
  | .error e => .error e
  | .ok (ts, visited) =>
    match coverAux visited (rowMajor g.length) with
    | .error e => .error e
    | .ok () => .ok ts

/-- Validity of a grid: square (every row as long as the row count) and all
characters drawn from the eight-symbol alphabet. -/
def ValidGrid (g : List (List Char)) : Prop :=
  (∀ row ∈ g, row.length = g.length) ∧
  (∀ row ∈ g, ∀ ch ∈ row, ALLOWED ch = true)

instance : DecidablePred ValidGrid := fun g => by
  unfold ValidGrid; infer_instance

/-! ### Parsing (`parse_instance`, `parse_targets`) -/

/-- Errors raised during parsing (Python `ValueError`s with their distinct
messages). -/
inductive ParseError where
  | emptyGrid
  | nonSquare
  | invalidChar (ch : Char)
  | targetLineCount
  | invalidTargetValue
  | targetCountMismatch
deriving DecidableEq

/-- Python `str.strip()`: remove leading and trailing whitespace. -/
def pyStrip (s : String) : String :=
  ⟨((s.data.dropWhile Char.isWhitespace).reverse.dropWhile
      Char.isWhitespace).reverse⟩

/-- Splitting of a character list into maximal whitespace-free runs; the
fuel argument (instantiated with the list length) keeps the recursion
structural. -/
def tokensAux : Nat → List Char → List (List Char)
  | 0, _ => []
  | _, [] => []
  | fuel + 1, c :: rest =>
    if c.isWhitespace then tokensAux fuel rest
    else
      (c :: rest.takeWhile (fun d => ¬ d.isWhitespace)) ::
        tokensAux fuel (rest.dropWhile (fun d => ¬ d.isWhitespace))

/-- Python `str.split()` with no separator: split on whitespace runs,
dropping empty tokens. -/
def pySplit (s : String) : List String :=
  (tokensAux s.data.length s.data).map (fun l => ⟨l⟩)

/-- Numeric value of a nonempty all-digit character list, `none` otherwise. -/
def digitsVal? (l : List Char) : Option Nat :=
  if l ≠ [] ∧ l.all Char.isDigit then
    some (l.foldl (fun a c => a * 10 + (c.toNat - '0'.toNat)) 0)
  else none

/-- Python `int(token)` on a whitespace-free token: an optional sign
followed by decimal digits, `none` when the token is not an integer. -/
def parseInt? (s : String) : Option Int :=
  match s.data with
  | '-' :: rest => (digitsVal? rest).map (fun n => -(n : Int))
  | '+' :: rest => (digitsVal? rest).map (fun n => (n : Int))
  | l => (digitsVal? l).map (fun n => (n : Int))

/-- Left-to-right parsing of every token, failing as soon as one token is
not an integer (the Python list comprehension over `int(token)`). -/
def parseInts? : List String → Option (List Int)
  | [] => some []
  | t :: rest =>
    match parseInt? t, parseInts? rest with
    | some v, some vs => some (v :: vs)
    | _, _ => none

/-- Embedding of `parse_targets`: split the line on whitespace, parse every
token as an integer (failing with `invalidTargetValue` when one is not),
then check that exactly `expected` values were found. -/
def parse_targets (line : String) (expected : Nat) :
    Except ParseError (List Int) :=
  match parseInts? (pySplit line) with
  | none => .error .invalidTargetValue
  | some vs =>
    if vs.length ≠ expected then .error .targetCountMismatch
    else .ok vs

/-- Classification test of `parse_instance` line 101: a (stripped, nonblank)
line is a grid row exactly when all its characters are allowed symbols. -/
def isGridLine (s : String) : Bool :=
  s.data.all ALLOWED

/-- Per-row validation loop of `parse_instance` (lines 110-115): reject rows
whose length differs from the row count, then re-check every character
against the alphabet (the character check is unreachable in practice, which
one of the theorems below establishes). -/
def checkRows : List String → Nat → Except ParseError Unit
  | [], _ => .ok ()
  | row :: rest, size =>
    if row.length ≠ size then .error .nonSquare
    else
      match row.data.find? (fun ch => ¬ ALLOWED ch) with
      | some ch => .error (.invalidChar ch)
      | none => checkRows rest size

/-- The grid rows of the input: stripped nonblank lines made up entirely of
alphabet symbols, in order of appearance. -/
def gridLinesOf (raw : List String) : List String :=
  ((raw.map pyStrip).filter (fun s => s ≠ "")).filter isGridLine

/-- The numeric target lines of the input: the remaining stripped nonblank
lines, in order of appearance. -/
def numberLinesOf (raw : List String) : List String :=
  ((raw.map pyStrip).filter (fun s => s ≠ "")).filter (fun s => ¬ isGridLine s)

/-- Embedding of `parse_instance` on the raw text lines (file I/O, which is
out of scope, already performed the splitting into lines): strip and drop
blanks, classify lines, then validate the grid and parse the two target
lines. -/
def parse_instance (raw : List String) :
    Except ParseError (List String × List Int × List Int) :=
  if gridLinesOf raw = [] then .error .emptyGrid
  else
    match checkRows (gridLinesOf raw) (gridLinesOf raw).length with
    | .error e => .error e
    | .ok () =>
      if (numberLinesOf raw).length ≠ 2 then .error .targetLineCount
      else
        match parse_targets ((numberLinesOf raw).getD 0 "") (gridLinesOf raw).length with
        | .error e => .error e
        | .ok column_targets =>
          match parse_targets ((numberLinesOf raw).getD 1 "") (gridLinesOf raw).length with
          | .error e => .error e
          | .ok row_targets =>
            .ok (gridLinesOf raw, column_targets, row_targets)

/-! ### Rendering (`render_facts`) -/

/-- Fact line `row(<r>).`. -/
def rowFact (r : Nat) : String := "row(" ++ (toString r ++ ").")

/-- Fact line `col(<c>).`. -/
def colFact (c : Nat) : String := "col(" ++ (toString c ++ ").")

/-- Fact line `cell(<r>,<c>).`. -/
def cellFact (r c : Nat) : String :=
  "cell(" ++ (toString r ++ ("," ++ (toString c ++ ").")))

/-- Fact line `col_target(<idx>,<value>).`. -/
def colTargetFact (i : Nat) (v : Int) : String :=
  "col_target(" ++ (toString i ++ ("," ++ (toString v ++ ").")))

/-- Fact line `row_target(<idx>,<value>).`. -/
def rowTargetFact (i : Nat) (v : Int) : String :=
  "row_target(" ++ (toString i ++ ("," ++ (toString v ++ ").")))

/-- The block of lines emitted for one thermometer: identity, direction and
length facts, one `thermo_cell` fact per cell, then a blank separator. -/
def thermoLines (t : Thermometer) : List String :=
  ("thermometer(" ++ (toString t.bulb_row ++ ("," ++ (toString t.bulb_col ++ ").")))) ::
  ("thermo_dir(" ++ (toString t.bulb_row ++ ("," ++ (toString t.bulb_col ++ ("," ++ (t.direction ++ ").")))))) ::
  ("thermo_length(" ++ (toString t.bulb_row ++ ("," ++ (toString t.bulb_col ++ ("," ++ (toString t.cells.length ++ ").")))))) ::
  (t.cells.map (fun x =>
    "thermo_cell(" ++ (toString t.bulb_row ++ ("," ++ (toString t.bulb_col ++
      ("," ++ (toString x.1 ++ ("," ++ (toString x.2.1 ++
        ("," ++ (toString x.2.2 ++ ").")))))))))) ++ [""])

/-- The full list of lines built by `render_facts` before joining. -/
def renderLines (g : List (List Char)) (column_targets row_targets : List Int)
    (ts : List Thermometer) : List String :=
  ("#const n=" ++ (toString g.length ++ ".")) :: "" ::
  (((List.range g.length).map rowFact) ++ ([""] ++
  (((List.range g.length).map colFact) ++ ([""] ++
  (((rowMajor g.length).map (fun p => cellFact p.1 p.2)) ++ ([""] ++
  ((column_targets.enum.map (fun iv => colTargetFact iv.1 iv.2)) ++ ([""] ++
  ((row_targets.enum.map (fun iv => rowTargetFact iv.1 iv.2)) ++ ([""] ++
  (ts.flatMap thermoLines)))))))))))

/-- Python `str.rstrip()`: remove trailing whitespace. -/
def pyRstrip (s : String) : String :=
  ⟨(s.data.reverse.dropWhile Char.isWhitespace).reverse⟩

/-- Embedding of `render_facts`: join the lines with newlines, trim
trailing whitespace, and terminate with a single newline. -/
def render_facts (g : List (List Char)) (column_targets row_targets : List Int)
    (ts : List Thermometer) : String :=
  pyRstrip (String.intercalate "\n" (renderLines g column_targets row_targets ts)) ++ "\n"

/-! ### Invariants of the extraction algorithm -/

/-- Coordinate of a thermometer cell entry. -/
def cellCoord (x : Cell) : Coord := (x.2.1, x.2.2)

/-- All coordinates claimed by a list of thermometers, in order. -/
def allCellCoords (ts : List Thermometer) : List Coord :=
  ts.flatMap (fun t => t.cells.map cellCoord)

/-- Invariant of the visited set: every visited cell is in bounds, and every
visited non-bulb cell was entered from a visited predecessor one step
against its own direction. -/
def Inv (g : List (List Char)) (visited : List Coord) : Prop :=
  ∀ p ∈ visited, p.1 < g.length ∧ p.2 < g.length ∧
    (isBulb (gget g p.1 p.2) = false →
      ∃ d, delta? (gget g p.1 p.2) = some d ∧
        ∃ q ∈ visited, (q.1 : Int) = (p.1 : Int) - d.1 ∧
          (q.2 : Int) = (p.2 : Int) - d.2)

/-- Number of loop iterations left before a walk in direction `d` starting
at `(r, c)` must leave an n×n grid. -/
def walkMeasure (d : Int × Int) (r c size : Nat) : Nat :=
  if d = (-1, 0) then r + 1
  else if d = (1, 0) then size - r
  else if d = (0, -1) then c + 1
  else size - c

/-- Precondition for entering the walk at `(r, c)`: the cell is a bulb
(walk start) or a chain cell of direction `d` whose predecessor is already
visited (walk step). -/
def WalkPre (g : List (List Char)) (d : Int × Int) (visited : List Coord)
    (r c : Nat) : Prop :=
  isBulb (gget g r c) = true ∨
    (delta? (gget g r c) = some d ∧
      ∃ q ∈ visited, (q.1 : Int) = (r : Int) - d.1 ∧
        (q.2 : Int) = (c : Int) - d.2)

/-- Postcondition of a completed walk: the cells appended after `cells` form
a chain starting at `(r, c)` with consecutive ordinals and `d`-steps; the
visited list grows by exactly those coordinates; all cells after the first
are non-bulbs and in bounds; and a walk whose very next cell is a bulb
stops after a single cell. -/
def WalkOut (g : List (List Char)) (d : Int × Int) (visited : List Coord)
    (r c index : Nat) (cells : List Cell)
    (res : List Cell × List Coord) : Prop :=
  ∃ nw : List Cell,
    res.1 = cells ++ nw ∧
    res.2 = (nw.map cellCoord).reverse ++ visited ∧
    nw.head? = some (index, r, c) ∧
    (∀ k (hk : k < nw.length), ∃ rk ck : Nat,
      nw.get ⟨k, hk⟩ = (index + k, rk, ck) ∧
      (rk : Int) = (r : Int) + k * d.1 ∧ (ck : Int) = (c : Int) + k * d.2) ∧
    (∀ p ∈ (nw.drop 1).map cellCoord, isBulb (gget g p.1 p.2) = false) ∧
    (∀ p ∈ nw.map cellCoord, p.1 < g.length ∧ p.2 < g.length) ∧
    ((0 ≤ (r : Int) + d.1 ∧ (r : Int) + d.1 < (g.length : Int) ∧
      0 ≤ (c : Int) + d.2 ∧ (c : Int) + d.2 < (g.length : Int) ∧
      isBulb (gget g ((r : Int) + d.1).toNat ((c : Int) + d.2).toNat) = true) →
      nw.length = 1)

/-- Properties of every thermometer the scan produces: its bulb cell holds a
bulb symbol whose tables give the stored direction name and a step `d`; the
cells are `(k+1, bulb + k·d)`; and a bulb directly facing another bulb
yields a single-cell thermometer. -/
def ThermoProp (g : List (List Char)) (t : Thermometer) : Prop :=
  t.bulb_row < g.length ∧ t.bulb_col < g.length ∧
  isBulb (gget g t.bulb_row t.bulb_col) = true ∧
  ∃ d, delta? (gget g t.bulb_row t.bulb_col) = some d ∧
    dirName? (gget g t.bulb_row t.bulb_col) = some t.direction ∧
    t.cells ≠ [] ∧
    (∀ k (hk : k < t.cells.length), ∃ rk ck : Nat,
      t.cells.get ⟨k, hk⟩ = (k + 1, rk, ck) ∧
      (rk : Int) = (t.bulb_row : Int) + k * d.1 ∧
      (ck : Int) = (t.bulb_col : Int) + k * d.2) ∧
    ((0 ≤ (t.bulb_row : Int) + d.1 ∧
      (t.bulb_row : Int) + d.1 < (g.length : Int) ∧
      0 ≤ (t.bulb_col : Int) + d.2 ∧
      (t.bulb_col : Int) + d.2 < (g.length : Int) ∧
      isBulb (gget g ((t.bulb_row : Int) + d.1).toNat
        ((t.bulb_col : Int) + d.2).toNat) = true) →
      t.cells.length = 1)

/-- Invariant carried through the outer scan: the visited set satisfies
`Inv`, has no duplicates, and is a permutation of the coordinates claimed by
the thermometers so far; every visited bulb already owns a thermometer; and
every produced thermometer satisfies `ThermoProp`. -/
def ScanInv (g : List (List Char)) (st : List Thermometer × List Coord) : Prop :=
  Inv g st.2 ∧ st.2.Nodup ∧ st.2.Perm (allCellCoords st.1) ∧
  (∀ p ∈ st.2, isBulb (gget g p.1 p.2) = true →
    ∃ t ∈ st.1, t.bulb_row = p.1 ∧ t.bulb_col = p.2) ∧
  (∀ t ∈ st.1, ThermoProp g t)

/-! ### Basic helper lemmas -/

theorem mem_DELTAS_cases {d : Int × Int} (hd : d ∈ DELTAS) :
    d = (-1, 0) ∨ d = (1, 0) ∨ d = (0, 1) ∨ d = (0, -1) := by
  simpa [DELTAS] using hd

theorem mem_rowMajor {size r c : Nat} :
    (r, c) ∈ rowMajor size ↔ r < size ∧ c < size := by
  simp only [rowMajor, List.mem_flatMap, List.mem_map, List.mem_range]
  constructor
  · rintro ⟨a, ha, b, hb, he⟩
    obtain ⟨h1, h2⟩ := Prod.mk.injEq .. ▸ he
    cases he; exact ⟨ha, hb⟩
  · rintro ⟨h1, h2⟩
    exact ⟨r, h1, c, h2, rfl⟩

theorem Inv_cons {g : List (List Char)} {v : List Coord} {r c : Nat}
    (hInv : Inv g v) (hr : r < g.length) (hc : c < g.length)
    (hnew : isBulb (gget g r c) = false →
      ∃ d, delta? (gget g r c) = some d ∧
        ∃ q ∈ (r, c) :: v, (q.1 : Int) = (r : Int) - d.1 ∧
          (q.2 : Int) = (c : Int) - d.2) :
    Inv g ((r, c) :: v) := by
  intro p hp
  rcases List.mem_cons.mp hp with h | h
  · subst h
    exact ⟨hr, hc, hnew⟩
  · obtain ⟨h1, h2, h3⟩ := hInv p h
    refine ⟨h1, h2, fun hb => ?_⟩
    obtain ⟨d, hd, q, hq, he⟩ := h3 hb
    exact ⟨d, hd, q, List.mem_cons_of_mem _ hq, he⟩

theorem walkMeasure_le_size {d : Int × Int} (hd : d ∈ DELTAS) {r c size : Nat}
    (hr : r < size) (hc : c < size) : walkMeasure d r c size ≤ size := by
  rcases mem_DELTAS_cases hd with h | h | h | h <;> subst h <;>
    simp [walkMeasure] <;> omega

theorem walkMeasure_pos {d : Int × Int} (hd : d ∈ DELTAS) {r c size : Nat}
    (hr : r < size) (hc : c < size) : 1 ≤ walkMeasure d r c size := by
  rcases mem_DELTAS_cases hd with h | h | h | h <;> subst h <;>
    simp [walkMeasure] <;> omega

/-- Unfolding of one iteration of the walk loop. -/
theorem walkAux_succ (g : List (List Char)) (size : Nat) (d : Int × Int)
    (fuel : Nat) (visited : List Coord) (r c index : Nat) (cells : List Cell) :
    walkAux g size d (fuel + 1) visited r c index cells =
      if (r, c) ∈ visited then .error (.overlapping r c)
      else if 0 ≤ (r : Int) + d.1 ∧ (r : Int) + d.1 < (size : Int) ∧
          0 ≤ (c : Int) + d.2 ∧ (c : Int) + d.2 < (size : Int) then
        if isBulb (gget g ((r : Int) + d.1).toNat ((c : Int) + d.2).toNat) then
          .ok (cells ++ [(index, r, c)], (r, c) :: visited)
        else if delta? (gget g ((r : Int) + d.1).toNat ((c : Int) + d.2).toNat) = some d then
          walkAux g size d fuel ((r, c) :: visited)
            ((r : Int) + d.1).toNat ((c : Int) + d.2).toNat (index + 1)
            (cells ++ [(index, r, c)])
        else .ok (cells ++ [(index, r, c)], (r, c) :: visited)
      else .ok (cells ++ [(index, r, c)], (r, c) :: visited) := rfl

/-! ### The walk loop: invariant preservation, no overlap, termination -/

theorem walkAux_spec (g : List (List Char)) (d : Int × Int) (hd : d ∈ DELTAS) :
    ∀ (fuel : Nat) (visited : List Coord) (r c index : Nat) (cells : List Cell),
      Inv g visited → visited.Nodup →
      r < g.length → c < g.length → (r, c) ∉ visited →
      WalkPre g d visited r c →
      walkMeasure d r c g.length ≤ fuel →
      ∃ res, walkAux g g.length d fuel visited r c index cells = .ok res ∧
        WalkOut g d visited r c index cells res ∧ Inv g res.2 ∧ res.2.Nodup := by
  intro fuel
  induction fuel with
  | zero =>
    intro visited r c index cells _ _ hr hc _ _ hm
    exact absurd hm (by have := walkMeasure_pos hd hr hc; omega)
  | succ fuel ih =>
    intro visited r c index cells hInv hnd hr hc hmem hpre hm
    rw [walkAux_succ, if_neg hmem]
    -- the one-cell stop output satisfies WalkOut
    have hstop : WalkOut g d visited r c index cells
        (cells ++ [(index, r, c)], (r, c) :: visited) ∧
        Inv g ((r, c) :: visited) ∧ ((r, c) :: visited).Nodup := by
      refine ⟨⟨[(index, r, c)], by simp, by simp [cellCoord], rfl, ?_, by simp,
        ?_, fun _ => rfl⟩, ?_, List.nodup_cons.mpr ⟨hmem, hnd⟩⟩
      · intro k hk
        have hk0 : k = 0 := Nat.lt_one_iff.mp (by simpa using hk)
        subst hk0
        exact ⟨r, c, by simp⟩
      · intro p hp
        simp only [List.map_cons, List.map_nil, List.mem_cons,
          List.not_mem_nil, or_false] at hp
        rw [hp]
        exact ⟨hr, hc⟩
      · refine Inv_cons hInv hr hc fun hb => ?_
        rcases hpre with h | ⟨h1, q, hq, he⟩
        · rw [h] at hb; simp at hb
        · exact ⟨d, h1, q, List.mem_cons_of_mem _ hq, he⟩
    by_cases hbnd : 0 ≤ (r : Int) + d.1 ∧ (r : Int) + d.1 < (g.length : Int) ∧
        0 ≤ (c : Int) + d.2 ∧ (c : Int) + d.2 < (g.length : Int)
    · rw [if_pos hbnd]
      set r2 := ((r : Int) + d.1).toNat with hr2def
      set c2 := ((c : Int) + d.2).toNat with hc2def
      have hr2 : (r2 : Int) = (r : Int) + d.1 := Int.toNat_of_nonneg hbnd.1
      have hc2 : (c2 : Int) = (c : Int) + d.2 := Int.toNat_of_nonneg hbnd.2.2.1
      have hr2lt : r2 < g.length := by omega
      have hc2lt : c2 < g.length := by omega
      by_cases hbulb : isBulb (gget g r2 c2) = true
      · rw [if_pos hbulb]
        exact ⟨_, rfl, hstop.1, hstop.2.1, hstop.2.2⟩
      · rw [if_neg hbulb]
        have hbulb' : isBulb (gget g r2 c2) = false := by
          simpa using hbulb
        by_cases hdel : delta? (gget g r2 c2) = some d
        · rw [if_pos hdel]
          -- recursive case
          have hInv2 : Inv g ((r, c) :: visited) := hstop.2.1
          have hnd2 : ((r, c) :: visited).Nodup := hstop.2.2
          have hne : (r2, c2) ≠ (r, c) := by
            rcases mem_DELTAS_cases hd with h | h | h | h <;> subst h <;>
              (intro he; obtain ⟨h1, h2⟩ := Prod.mk.injEq .. ▸ he; omega)
          have hmem2 : (r2, c2) ∉ (r, c) :: visited := by
            intro hin
            rcases List.mem_cons.mp hin with h | h
            · exact hne h
            · obtain ⟨_, _, h3⟩ := hInv _ h
              obtain ⟨d', hd', q, hq, he1, he2⟩ := h3 hbulb'
              rw [hdel] at hd'
              have hdd : d' = d := (Option.some.inj hd').symm
              subst hdd
              have : q = (r, c) := by
                have : (q.1 : Int) = r ∧ (q.2 : Int) = c := by
                  constructor <;> omega
                have h1 : q.1 = r := by omega
                have h2 : q.2 = c := by omega
                exact Prod.ext h1 h2
              exact hmem (this ▸ hq)
          have hpre2 : WalkPre g d ((r, c) :: visited) r2 c2 := by
            refine Or.inr ⟨hdel, (r, c), List.mem_cons_self _ _, ?_, ?_⟩ <;> omega
          have hm2 : walkMeasure d r2 c2 g.length ≤ fuel := by
            rcases mem_DELTAS_cases hd with h | h | h | h <;> subst h <;>
              (simp only [walkMeasure] at hm ⊢; simp_all; omega)
          obtain ⟨res, heq, hout, hInvr, hndr⟩ :=
            ih ((r, c) :: visited) r2 c2 (index + 1) (cells ++ [(index, r, c)])
              hInv2 hnd2 hr2lt hc2lt hmem2 hpre2 hm2
          refine ⟨res, heq, ?_, hInvr, hndr⟩
          -- build outer WalkOut from inner
          obtain ⟨nw, ho1, ho2, ho3, ho4, ho5, ho6, ho7⟩ := hout
          obtain ⟨nwtl, hnwtl⟩ : ∃ tl, nw = (index + 1, r2, c2) :: tl := by
            cases nw with
            | nil => simp at ho3
            | cons a tl =>
              have : a = (index + 1, r2, c2) := by simpa using ho3
              exact ⟨tl, by rw [this]⟩
          refine ⟨(index, r, c) :: nw, ?_, ?_, rfl, ?_, ?_, ?_, ?_⟩
          · rw [ho1]; simp
          · rw [ho2]; simp [cellCoord]
          · intro k hk
            match k with
            | 0 => exact ⟨r, c, by simp⟩
            | k + 1 =>
              have hk' : k < nw.length := by simpa using hk
              obtain ⟨rk, ck, hg, he1, he2⟩ := ho4 k hk'
              refine ⟨rk, ck, ?_, ?_, ?_⟩
              · simpa [Nat.add_assoc, Nat.add_comm 1 k] using hg
              · push_cast; rw [he1, hr2]; ring
              · push_cast; rw [he2, hc2]; ring
          · intro p hp
            simp only [List.drop_one, List.tail_cons] at hp
            rw [hnwtl] at hp
            simp only [List.map_cons, List.mem_cons] at hp
            rcases hp with h | h
            · rw [h]; exact hbulb'
            · exact ho5 p (by rw [hnwtl]; simpa using h)
          · intro p hp
            simp only [List.map_cons, List.mem_cons] at hp
            rcases hp with h | h
            · rw [h]; exact ⟨hr, hc⟩
            · exact ho6 p h
          · intro hface
            exfalso
            have := hface.2.2.2.2
            rw [← hr2def, ← hc2def] at this
            rw [this] at hbulb'
            simp at hbulb'
        · rw [if_neg hdel]
          exact ⟨_, rfl, hstop.1, hstop.2.1, hstop.2.2⟩
    · rw [if_neg hbnd]
      exact ⟨_, rfl, hstop.1, hstop.2.1, hstop.2.2⟩

/-! ### The outer scan -/

theorem bulb_tables {ch : Char} (h : isBulb ch = true) :
    ∃ dl nm, delta? ch = some dl ∧ dirName? ch = some nm ∧ dl ∈ DELTAS := by
  have h' : ch = 'U' ∨ ch = 'D' ∨ ch = 'R' ∨ ch = 'L' := by
    simpa [isBulb, or_assoc] using h
  rcases h' with h | h | h | h <;> subst h <;>
    exact ⟨_, _, rfl, rfl, by simp [DELTAS, delta?]⟩

theorem scanAux_spec (g : List (List Char)) :
    ∀ (coords : List Coord) (st : List Thermometer × List Coord),
      (∀ p ∈ coords, p.1 < g.length ∧ p.2 < g.length) →
      ScanInv g st →
      ∃ st2, scanAux g g.length coords st = .ok st2 ∧ ScanInv g st2 ∧
        (∀ p ∈ st.2, p ∈ st2.2) ∧ (∀ t ∈ st.1, t ∈ st2.1) ∧
        (∀ p ∈ coords, isBulb (gget g p.1 p.2) = true →
          ∃ t ∈ st2.1, t.bulb_row = p.1 ∧ t.bulb_col = p.2) := by
  intro coords
  induction coords with
  | nil =>
    intro st _ hinv
    exact ⟨st, rfl, hinv, fun p hp => hp, fun t ht => ht, by simp⟩
  | cons p rest ih =>
    intro st hb hinv
    obtain ⟨hInv, hnd, hperm, hbulbs, hts⟩ := hinv
    have hpbnd := hb p (List.mem_cons_self _ _)
    by_cases hguard : isBulb (gget g p.1 p.2) = true ∧ (p.1, p.2) ∉ st.2
    · -- a fresh bulb: walk it
      obtain ⟨d0, nm, hdl, hnm, hdmem⟩ := bulb_tables hguard.1
      obtain ⟨res, heq, hout, hInv2, hnd2⟩ :=
        walkAux_spec g d0 hdmem g.length st.2 p.1 p.2 1 []
          hInv hnd hpbnd.1 hpbnd.2 hguard.2 (Or.inl hguard.1)
          (walkMeasure_le_size hdmem hpbnd.1 hpbnd.2)
      obtain ⟨resc, resv⟩ := res
      obtain ⟨nw, ho1, ho2, ho3, ho4, ho5, ho6, ho7⟩ := hout
      simp only at ho1 ho2 hInv2 hnd2
      have hres1 : resc = nw := by simpa using ho1
      subst hres1
      obtain ⟨resctl, hresctl⟩ : ∃ tl, resc = (1, p.1, p.2) :: tl := by
        cases resc with
        | nil => simp at ho3
        | cons a tl =>
          have : a = (1, p.1, p.2) := by simpa using ho3
          exact ⟨tl, by rw [this]⟩
      have hpc : processCell g g.length st p =
          .ok (st.1 ++ [⟨p.1, p.2, nm, resc⟩], resv) := by
        simp only [processCell]
        rw [if_pos hguard, hdl, hnm]
        simp only [Option.getD_some]
        rw [heq]
      have htp : ThermoProp g (⟨p.1, p.2, nm, resc⟩ : Thermometer) := by
        refine ⟨hpbnd.1, hpbnd.2, hguard.1, d0, hdl, hnm, ?_, ?_, ?_⟩
        · show resc ≠ []
          rw [hresctl]; simp
        · show ∀ k (hk : k < resc.length), ∃ rk ck : Nat,
            resc.get ⟨k, hk⟩ = (k + 1, rk, ck) ∧
            (rk : Int) = (p.1 : Int) + k * d0.1 ∧
            (ck : Int) = (p.2 : Int) + k * d0.2
          intro k hk
          obtain ⟨rk, ck, hg, he1, he2⟩ := ho4 k hk
          exact ⟨rk, ck, by rw [hg, Nat.add_comm], he1, he2⟩
        · show _ → resc.length = 1
          exact ho7
      have hinv2 : ScanInv g (st.1 ++ [(⟨p.1, p.2, nm, resc⟩ : Thermometer)], resv) := by
        refine ⟨hInv2, hnd2, ?_, ?_, ?_⟩
        · -- permutation
          have p1 : ((resc.map cellCoord).reverse ++ st.2).Perm
              (resc.map cellCoord ++ st.2) :=
            (List.reverse_perm _).append_right _
          have p2 : (resc.map cellCoord ++ st.2).Perm
              (resc.map cellCoord ++ allCellCoords st.1) :=
            List.Perm.append_left _ hperm
          have p3 : (resc.map cellCoord ++ allCellCoords st.1).Perm
              (allCellCoords st.1 ++ resc.map cellCoord) :=
            List.perm_append_comm
          have p4 : allCellCoords st.1 ++ resc.map cellCoord =
              allCellCoords (st.1 ++ [(⟨p.1, p.2, nm, resc⟩ : Thermometer)]) := by
            simp [allCellCoords]
          show resv.Perm _
          rw [ho2, ← p4]
          exact (p1.trans p2).trans p3
        · -- visited bulbs own thermometers
          intro q hq hqb
          rw [ho2] at hq
          rcases List.mem_append.mp hq with h | h
          · rw [List.mem_reverse] at h
            rw [hresctl] at h
            simp only [List.map_cons, List.mem_cons] at h
            rcases h with h | h
            · refine ⟨⟨p.1, p.2, nm, resc⟩,
                List.mem_append.mpr (Or.inr (List.mem_singleton_self _)), ?_, ?_⟩ <;>
                simp [h, cellCoord]
            · have := ho5 q (by rw [hresctl]; simpa using h)
              rw [this] at hqb
              simp at hqb
          · obtain ⟨t', ht', he⟩ := hbulbs q h hqb
            exact ⟨t', List.mem_append.mpr (Or.inl ht'), he⟩
        · intro t' ht'
          rcases List.mem_append.mp ht' with h | h
          · exact hts t' h
          · rw [List.mem_singleton.mp h]
            exact htp
      obtain ⟨st3, hs3, hinv3, hsub3, htsub3, hbulb3⟩ :=
        ih (st.1 ++ [⟨p.1, p.2, nm, resc⟩], resv)
          (fun q hq => hb q (List.mem_cons_of_mem _ hq)) hinv2
      refine ⟨st3, ?_, hinv3, ?_, ?_, ?_⟩
      · rw [scanAux, hpc]; exact hs3
      · intro q hq
        refine hsub3 q ?_
        show q ∈ resv
        rw [ho2]
        exact List.mem_append.mpr (Or.inr hq)
      · intro t' ht'
        exact htsub3 t' (List.mem_append.mpr (Or.inl ht'))
      · intro q hq hqb
        rcases List.mem_cons.mp hq with h | h
        · subst h
          exact ⟨⟨q.1, q.2, nm, resc⟩,
            htsub3 _ (List.mem_append.mpr (Or.inr (List.mem_singleton_self _))),
            rfl, rfl⟩
        · exact hbulb3 q h hqb
    · -- not a fresh bulb: state unchanged
      have hpc : processCell g g.length st p = .ok st := by
        simp only [processCell]
        rw [if_neg hguard]
      obtain ⟨st3, hs3, hinv3, hsub3, htsub3, hbulb3⟩ :=
        ih st (fun q hq => hb q (List.mem_cons_of_mem _ hq))
          ⟨hInv, hnd, hperm, hbulbs, hts⟩
      refine ⟨st3, ?_, hinv3, hsub3, htsub3, ?_⟩
      · rw [scanAux, hpc]; exact hs3
      · intro q hq hqb
        rcases List.mem_cons.mp hq with h | h
        · subst h
          have hqmem : (q.1, q.2) ∈ st.2 := by
            by_contra hno
            exact hguard ⟨hqb, hno⟩
          obtain ⟨t', ht', he⟩ := hbulbs q (by simpa using hqmem) hqb
          exact ⟨t', htsub3 t' ht', he⟩
        · exact hbulb3 q h hqb

/-! ### Pipeline lemmas -/

/-- The bulb-processing phase always succeeds and establishes the scan
invariant, with a thermometer for every bulb cell of the grid. -/
theorem scanPhase_ok (g : List (List Char)) :
    ∃ st, scanPhase g = .ok st ∧ ScanInv g st ∧
      (∀ p ∈ rowMajor g.length, isBulb (gget g p.1 p.2) = true →
        ∃ t ∈ st.1, t.bulb_row = p.1 ∧ t.bulb_col = p.2) := by
  have hbnd : ∀ p ∈ rowMajor g.length, p.1 < g.length ∧ p.2 < g.length := by
    intro p hp
    obtain ⟨r, c⟩ := p
    exact mem_rowMajor.mp hp
  have hinv0 : ScanInv g ([], []) := by
    refine ⟨?_, List.nodup_nil, ?_, ?_, ?_⟩
    · intro p hp; simp at hp
    · simp [allCellCoords]
    · intro p hp; simp at hp
    · intro t ht; simp at ht
  obtain ⟨st2, heq, hinv, _, _, hbulb⟩ :=
    scanAux_spec g (rowMajor g.length) ([], []) hbnd hinv0
  exact ⟨st2, heq, hinv, hbulb⟩

theorem coverAux_ok_iff (visited : List Coord) :
    ∀ coords, coverAux visited coords = .ok () ↔ ∀ p ∈ coords, p ∈ visited := by
  intro coords
  induction coords with
  | nil => simp [coverAux]
  | cons p rest ih =>
    by_cases hp : p ∈ visited
    · rw [coverAux, if_pos hp]
      rw [ih]
      constructor
      · intro h q hq
        rcases List.mem_cons.mp hq with h' | h'
        · subst h'; exact hp
        · exact h q h'
      · intro h q hq
        exact h q (List.mem_cons_of_mem _ hq)
    · rw [coverAux, if_neg hp]
      constructor
      · intro h; cases h
      · intro h
        exact absurd (h p (List.mem_cons_self _ _)) hp

theorem coverAux_error_shape (visited : List Coord) :
    ∀ coords e, coverAux visited coords = .error e →
      ∃ r c, e = .uncovered r c ∧ (r, c) ∈ coords ∧ (r, c) ∉ visited := by
  intro coords
  induction coords with
  | nil => intro e h; cases h
  | cons p rest ih =>
    intro e h
    by_cases hp : p ∈ visited
    · rw [coverAux, if_pos hp] at h
      obtain ⟨r, c, h1, h2, h3⟩ := ih e h
      exact ⟨r, c, h1, List.mem_cons_of_mem _ h2, h3⟩
    · rw [coverAux, if_neg hp] at h
      refine ⟨p.1, p.2, by injection h with h'; rw [← h'], ?_, ?_⟩
      · exact List.mem_cons_self _ _
      · simpa using hp

/-! ### Extraction claim theorems -/

/-- Fuel equal to the walk measure suffices: the walk loop never exhausts
its fuel, regardless of the visited set. -/
theorem walkAux_no_fuel_exhaustion (g : List (List Char)) (size : Nat)
    (d : Int × Int) (hd : d ∈ DELTAS) :
    ∀ (fuel : Nat) (visited : List Coord) (r c index : Nat) (cells : List Cell),
      r < size → c < size → walkMeasure d r c size ≤ fuel →
      walkAux g size d fuel visited r c index cells ≠ .error .fuelExhausted := by
  intro fuel
  induction fuel with
  | zero =>
    intro visited r c index cells hr hc hm
    exact absurd hm (by have := walkMeasure_pos hd hr hc; omega)
  | succ fuel ih =>
    intro visited r c index cells hr hc hm
    rw [walkAux_succ]
    by_cases hmem : (r, c) ∈ visited
    · rw [if_pos hmem]; intro h; cases h
    rw [if_neg hmem]
    by_cases hbnd : 0 ≤ (r : Int) + d.1 ∧ (r : Int) + d.1 < (size : Int) ∧
        0 ≤ (c : Int) + d.2 ∧ (c : Int) + d.2 < (size : Int)
    · rw [if_pos hbnd]
      have hr2 : (((r : Int) + d.1).toNat : Int) = (r : Int) + d.1 :=
        Int.toNat_of_nonneg hbnd.1
      have hc2 : (((c : Int) + d.2).toNat : Int) = (c : Int) + d.2 :=
        Int.toNat_of_nonneg hbnd.2.2.1
      by_cases hbulb : isBulb (gget g ((r : Int) + d.1).toNat ((c : Int) + d.2).toNat) = true
      · rw [if_pos hbulb]; intro h; cases h
      · rw [if_neg hbulb]
        by_cases hdel : delta? (gget g ((r : Int) + d.1).toNat ((c : Int) + d.2).toNat) = some d
        · rw [if_pos hdel]
          refine ih _ _ _ _ _ (by omega) (by omega) ?_
          rcases mem_DELTAS_cases hd with h | h | h | h <;> subst h <;>
            (simp only [walkMeasure] at hm ⊢; simp_all; omega)
        · rw [if_neg hdel]; intro h; cases h
    · rw [if_neg hbnd]; intro h; cases h

/-- Evaluation of `extract_thermometers` once the scan phase result is
known. -/
theorem extract_eq_of_scan {g : List (List Char)} {ts : List Thermometer}
    {vis : List Coord} (h : scanPhase g = .ok (ts, vis)) :
    extract_thermometers g =
      match coverAux vis (rowMajor g.length) with
      | .error e => .error e
      | .ok () => .ok ts := by
  unfold extract_thermometers
  rw [h]

theorem dirName_nameDelta {ch : Char} {s : String} {d : Int × Int}
    (h1 : dirName? ch = some s) (h2 : delta? ch = some d) :
    nameDelta s = some d := by
  unfold dirName? at h1
  unfold delta? at h2
  split_ifs at h1 h2 <;>
    (injection h1 with h1; injection h2 with h2; subst h1; subst h2; decide)

/-- Claim C9: on a valid grid the `OverlappingThermometer` branch is
unreachable. -/
theorem overlapping_unreachable (g : List (List Char)) (hv : ValidGrid g) :
    ∀ r c : Nat, extract_thermometers g ≠ .error (.overlapping r c) := by
  obtain ⟨⟨ts, vis⟩, hs, _, _⟩ := scanPhase_ok g
  intro r c h
  rw [extract_eq_of_scan hs] at h
  cases hcov : coverAux vis (rowMajor g.length) with
  | ok u => rw [hcov] at h; cases u; cases h
  | error e =>
    rw [hcov] at h
    obtain ⟨r', c', he, _, _⟩ := coverAux_error_shape vis (rowMajor g.length) e hcov
    subst he
    cases h

/-- Claim C10: the walk loop terminates within `n` steps (fuel `n` is never
exhausted), and the whole extraction completes. -/
theorem extraction_terminates (g : List (List Char)) (hv : ValidGrid g) :
    (∀ (d : Int × Int) (visited : List Coord) (r c index : Nat) (cells : List Cell),
      d ∈ DELTAS → r < g.length → c < g.length →
      walkAux g g.length d g.length visited r c index cells ≠ .error .fuelExhausted) ∧
    (∃ st, scanPhase g = .ok st) ∧
    extract_thermometers g ≠ .error .fuelExhausted := by
  obtain ⟨⟨ts, vis⟩, hs, _, _⟩ := scanPhase_ok g
  refine ⟨?_, ⟨_, hs⟩, ?_⟩
  · intro d visited r c index cells hd hr hc
    exact walkAux_no_fuel_exhaustion g g.length d hd g.length visited r c index cells
      hr hc (walkMeasure_le_size hd hr hc)
  · intro h
    rw [extract_eq_of_scan hs] at h
    cases hcov : coverAux vis (rowMajor g.length) with
    | ok u => rw [hcov] at h; cases u; cases h
    | error e =>
      rw [hcov] at h
      obtain ⟨r', c', he, _, _⟩ := coverAux_error_shape vis (rowMajor g.length) e hcov
      subst he
      cases h

/-- Claim C3: after a successful bulb scan, the extraction fails with
`UncoveredCell` exactly when some grid cell was never visited, names such a
cell, and returns normally when every cell is covered. -/
theorem uncovered_iff (g : List (List Char)) (hv : ValidGrid g)
    (ts : List Thermometer) (vis : List Coord)
    (hs : scanPhase g = .ok (ts, vis)) :
    ((∀ p ∈ rowMajor g.length, p ∈ vis) → extract_thermometers g = .ok ts) ∧
    (∀ r c : Nat, extract_thermometers g = .error (.uncovered r c) →
      (r, c) ∈ rowMajor g.length ∧ (r, c) ∉ vis) ∧
    ((∃ p ∈ rowMajor g.length, p ∉ vis) →
      ∃ r c : Nat, extract_thermometers g = .error (.uncovered r c)) := by
  refine ⟨?_, ?_, ?_⟩
  · intro hcov
    rw [extract_eq_of_scan hs, (coverAux_ok_iff vis (rowMajor g.length)).mpr hcov]
  · intro r c h
    rw [extract_eq_of_scan hs] at h
    cases hcov : coverAux vis (rowMajor g.length) with
    | ok u => rw [hcov] at h; cases u; cases h
    | error e =>
      rw [hcov] at h
      obtain ⟨r', c', he, hm, hn⟩ := coverAux_error_shape vis (rowMajor g.length) e hcov
      subst he
      injection h with h'
      injection h' with h1 h2
      subst h1; subst h2
      exact ⟨hm, hn⟩
  · intro hex
    rw [extract_eq_of_scan hs]
    cases hcov : coverAux vis (rowMajor g.length) with
    | ok u =>
      obtain ⟨p, hp, hnp⟩ := hex
      cases u
      exact absurd ((coverAux_ok_iff vis (rowMajor g.length)).mp hcov p hp) hnp
    | error e =>
      obtain ⟨r', c', he, _, _⟩ := coverAux_error_shape vis (rowMajor g.length) e hcov
      subst he
      exact ⟨r', c', rfl⟩

/-- A successful extraction pins down the scan result and the coverage
check. -/
theorem extract_ok_inv {g : List (List Char)} {ts ts2 : List Thermometer}
    {vis : List Coord} (hs : scanPhase g = .ok (ts, vis))
    (h : extract_thermometers g = .ok ts2) :
    ts2 = ts ∧ coverAux vis (rowMajor g.length) = .ok () := by
  rw [extract_eq_of_scan hs] at h
  cases hcov : coverAux vis (rowMajor g.length) with
  | error e => rw [hcov] at h; cases h
  | ok u => cases u; rw [hcov] at h; exact ⟨(Except.ok.inj h).symm, rfl⟩

/-- Claim C1: on success the thermometers' cell coordinates cover each grid
cell exactly once and contain nothing else. -/
theorem cells_partition (g : List (List Char)) (hv : ValidGrid g)
    (ts : List Thermometer) (h : extract_thermometers g = .ok ts) :
    ∀ r c : Nat, (allCellCoords ts).countP (fun q => decide (q = (r, c))) =
      if r < g.length ∧ c < g.length then 1 else 0 := by
  obtain ⟨⟨ts', vis⟩, hs, ⟨hInv, hnd, hperm, _, _⟩, _⟩ := scanPhase_ok g
  simp only at hInv hnd hperm
  obtain ⟨hts, hcov⟩ := extract_ok_inv hs h
  subst hts
  have hall : ∀ p ∈ rowMajor g.length, p ∈ vis :=
    (coverAux_ok_iff vis (rowMajor g.length)).mp hcov
  intro r c
  have hnd2 : (allCellCoords ts).Nodup := hperm.nodup hnd
  show @List.count _ instBEqOfDecidableEq (r, c) (allCellCoords ts) =
    if r < g.length ∧ c < g.length then 1 else 0
  rw [List.count_eq_of_nodup hnd2]
  by_cases hin : r < g.length ∧ c < g.length
  · rw [if_pos hin, if_pos ?_]
    exact hperm.mem_iff.mp (hall (r, c) (mem_rowMajor.mpr hin))
  · rw [if_neg hin, if_neg ?_]
    intro hmem
    obtain ⟨h1, h2, _⟩ := hInv (r, c) (hperm.mem_iff.mpr hmem)
    exact hin ⟨h1, h2⟩

/-- Claim C2: each returned thermometer's ordinals are 1, 2, … and each
later cell is the previous cell shifted by the unit step of the declared
direction. -/
theorem cells_chain (g : List (List Char)) (hv : ValidGrid g)
    (ts : List Thermometer) (h : extract_thermometers g = .ok ts) :
    ∀ t ∈ ts, ∃ d : Int × Int, nameDelta t.direction = some d ∧
      t.cells ≠ [] ∧
      (∀ k (hk : k < t.cells.length), (t.cells.get ⟨k, hk⟩).1 = k + 1) ∧
      (∀ k (hk : k + 1 < t.cells.length),
        ((t.cells.get ⟨k + 1, hk⟩).2.1 : Int) =
          ((t.cells.get ⟨k, Nat.lt_of_succ_lt hk⟩).2.1 : Int) + d.1 ∧
        ((t.cells.get ⟨k + 1, hk⟩).2.2 : Int) =
          ((t.cells.get ⟨k, Nat.lt_of_succ_lt hk⟩).2.2 : Int) + d.2) := by
  obtain ⟨⟨ts', vis⟩, hs, ⟨_, _, _, _, hts⟩, _⟩ := scanPhase_ok g
  simp only at hts
  obtain ⟨hts', _⟩ := extract_ok_inv hs h
  subst hts'
  intro t ht
  obtain ⟨_, _, _, d, hdl, hnm, hne, hcells, _⟩ := hts t ht
  refine ⟨d, dirName_nameDelta hnm hdl, hne, ?_, ?_⟩
  · intro k hk
    obtain ⟨rk, ck, hg, _, _⟩ := hcells k hk
    rw [hg]
  · intro k hk
    obtain ⟨rk1, ck1, hg1, he11, he12⟩ := hcells (k + 1) hk
    obtain ⟨rk, ck, hg, he1, he2⟩ := hcells k (Nat.lt_of_succ_lt hk)
    rw [hg1, hg]
    constructor
    · show (rk1 : Int) = (rk : Int) + d.1
      rw [he11, he1]
      push_cast
      ring
    · show (ck1 : Int) = (ck : Int) + d.2
      rw [he12, he2]
      push_cast
      ring

/-- Claim C5: two bulbs facing each other across adjacent cells, in a fully
covered grid, produce a normal return in which each bulb owns its own
single-cell thermometer. -/
theorem adjacent_bulbs (g : List (List Char)) (hv : ValidGrid g)
    (ts : List Thermometer) (vis : List Coord)
    (hs : scanPhase g = .ok (ts, vis))
    (hcov : ∀ p ∈ rowMajor g.length, p ∈ vis)
    (r1 c1 r2 c2 : Nat) (d1 d2 : Int × Int)
    (h1r : r1 < g.length) (h1c : c1 < g.length)
    (h2r : r2 < g.length) (h2c : c2 < g.length)
    (h1b : isBulb (gget g r1 c1) = true) (h2b : isBulb (gget g r2 c2) = true)
    (h1d : delta? (gget g r1 c1) = some d1)
    (h2d : delta? (gget g r2 c2) = some d2)
    (hf1 : (r2 : Int) = (r1 : Int) + d1.1 ∧ (c2 : Int) = (c1 : Int) + d1.2)
    (hf2 : (r1 : Int) = (r2 : Int) + d2.1 ∧ (c1 : Int) = (c2 : Int) + d2.2) :
    extract_thermometers g = .ok ts ∧
    (∃ t ∈ ts, t.bulb_row = r1 ∧ t.bulb_col = c1 ∧ t.cells.length = 1) ∧
    (∃ t ∈ ts, t.bulb_row = r2 ∧ t.bulb_col = c2 ∧ t.cells.length = 1) := by
  obtain ⟨⟨ts', vis'⟩, hs', ⟨_, _, _, _, hts⟩, hbulb⟩ := scanPhase_ok g
  simp only at hts hbulb
  rw [hs] at hs'
  obtain ⟨he1, he2⟩ := Prod.mk.injEq .. ▸ Except.ok.inj hs'
  subst he1; subst he2
  refine ⟨?_, ?_, ?_⟩
  · rw [extract_eq_of_scan hs, (coverAux_ok_iff vis (rowMajor g.length)).mpr hcov]
  · obtain ⟨t, ht, htr, htc⟩ :=
      hbulb (r1, c1) (mem_rowMajor.mpr ⟨h1r, h1c⟩) h1b
    simp only at htr htc
    obtain ⟨_, _, _, d, hdl, _, _, _, hface⟩ := hts t ht
    rw [htr, htc, h1d] at hdl
    have hdd : d = d1 := (Option.some.inj hdl).symm
    subst hdd
    refine ⟨t, ht, htr, htc, ?_⟩
    apply hface
    rw [htr, htc]
    have hrn : ((r1 : Int) + d.1).toNat = r2 := by omega
    have hcn : ((c1 : Int) + d.2).toNat = c2 := by omega
    refine ⟨by omega, by omega, by omega, by omega, ?_⟩
    rw [hrn, hcn]
    exact h2b
  · obtain ⟨t, ht, htr, htc⟩ :=
      hbulb (r2, c2) (mem_rowMajor.mpr ⟨h2r, h2c⟩) h2b
    simp only at htr htc
    obtain ⟨_, _, _, d, hdl, _, _, _, hface⟩ := hts t ht
    rw [htr, htc, h2d] at hdl
    have hdd : d = d2 := (Option.some.inj hdl).symm
    subst hdd
    refine ⟨t, ht, htr, htc, ?_⟩
    apply hface
    rw [htr, htc]
    have hrn : ((r2 : Int) + d.1).toNat = r1 := by omega
    have hcn : ((c2 : Int) + d.2).toNat = c1 := by omega
    refine ⟨by omega, by omega, by omega, by omega, ?_⟩
    rw [hrn, hcn]
    exact h1b

/-! ### Parsing claim theorems -/

theorem parseInts?_eq_none_iff (l : List String) :
    parseInts? l = none ↔ ∃ t ∈ l, parseInt? t = none := by
  induction l with
  | nil => simp [parseInts?]
  | cons t rest ih =>
    rw [parseInts?]
    cases hpt : parseInt? t with
    | none =>
      simp only [hpt]
      constructor
      · intro _; exact ⟨t, List.mem_cons_self _ _, hpt⟩
      · intro _; trivial
    | some v =>
      cases hpr : parseInts? rest with
      | none =>
        simp only [hpt, hpr]
        constructor
        · intro _
          obtain ⟨u, hu, hnone⟩ := ih.mp hpr
          exact ⟨u, List.mem_cons_of_mem _ hu, hnone⟩
        · intro _; trivial
      | some vs =>
        simp only [hpt, hpr]
        constructor
        · intro h; cases h
        · rintro ⟨u, hu, hnone⟩
          rcases List.mem_cons.mp hu with h | h
          · subst h; rw [hpt] at hnone; cases hnone
          · have : parseInts? rest = none := ih.mpr ⟨u, h, hnone⟩
            rw [hpr] at this; cases this

theorem parseInts?_length :
    ∀ (l : List String) (vs : List Int), parseInts? l = some vs →
      vs.length = l.length := by
  intro l
  induction l with
  | nil => intro vs h; rw [parseInts?] at h; cases h; rfl
  | cons t rest ih =>
    intro vs h
    rw [parseInts?] at h
    cases hpt : parseInt? t with
    | none => rw [hpt] at h; cases h
    | some v =>
      cases hpr : parseInts? rest with
      | none => rw [hpt, hpr] at h; cases h
      | some vs' =>
        rw [hpt, hpr] at h
        cases h
        simp [ih vs' hpr]

/-- Claim C6: target-line parsing splits on whitespace, fails with
`invalidTargetValue` when some token is not an integer, fails with
`targetCountMismatch` when the count differs from the expected grid size,
and otherwise returns all parsed values with no constraint on them. -/
theorem parse_targets_spec (line : String) (n : Nat) :
    ((∃ t ∈ pySplit line, parseInt? t = none) →
      parse_targets line n = .error .invalidTargetValue) ∧
    ((∀ t ∈ pySplit line, (parseInt? t).isSome) → (pySplit line).length ≠ n →
      parse_targets line n = .error .targetCountMismatch) ∧
    ((∀ t ∈ pySplit line, (parseInt? t).isSome) → (pySplit line).length = n →
      ∃ vs, parse_targets line n = .ok vs ∧ vs.length = n ∧
        parseInts? (pySplit line) = some vs) := by
  refine ⟨?_, ?_, ?_⟩
  · intro hex
    have h : parseInts? (pySplit line) = none :=
      (parseInts?_eq_none_iff _).mpr hex
    unfold parse_targets
    rw [h]
  · intro hall hne
    obtain ⟨vs, hvs⟩ : ∃ vs, parseInts? (pySplit line) = some vs := by
      cases h : parseInts? (pySplit line) with
      | none =>
        obtain ⟨t, ht, hnone⟩ := (parseInts?_eq_none_iff _).mp h
        have := hall t ht
        rw [hnone] at this
        cases this
      | some vs => exact ⟨vs, rfl⟩
    have hlen := parseInts?_length _ _ hvs
    unfold parse_targets
    rw [hvs]
    show (if vs.length ≠ n then (Except.error .targetCountMismatch :
      Except ParseError (List Int)) else .ok vs) = _
    rw [if_pos (by omega)]
  · intro hall hlen
    obtain ⟨vs, hvs⟩ : ∃ vs, parseInts? (pySplit line) = some vs := by
      cases h : parseInts? (pySplit line) with
      | none =>
        obtain ⟨t, ht, hnone⟩ := (parseInts?_eq_none_iff _).mp h
        have := hall t ht
        rw [hnone] at this
        cases this
      | some vs => exact ⟨vs, rfl⟩
    have hl := parseInts?_length _ _ hvs
    refine ⟨vs, ?_, by omega, hvs⟩
    unfold parse_targets
    rw [hvs]
    show (if vs.length ≠ n then (Except.error .targetCountMismatch :
      Except ParseError (List Int)) else .ok vs) = _
    rw [if_neg (by omega)]

theorem parse_targets_error_shape (line : String) (n : Nat) (e : ParseError)
    (h : parse_targets line n = .error e) :
    e = .invalidTargetValue ∨ e = .targetCountMismatch := by
  unfold parse_targets at h
  cases hp : parseInts? (pySplit line) with
  | none => rw [hp] at h; exact Or.inl (Except.error.inj h).symm
  | some vs =>
    rw [hp] at h
    have h' : (if vs.length ≠ n then (Except.error .targetCountMismatch :
        Except ParseError (List Int)) else .ok vs) = .error e := h
    by_cases hl : vs.length ≠ n
    · rw [if_pos hl] at h'; exact Or.inr (Except.error.inj h').symm
    · rw [if_neg hl] at h'; cases h'

theorem checkRows_no_invalidChar :
    ∀ (ls : List String) (n : Nat) (ch : Char),
      (∀ s ∈ ls, isGridLine s = true) →
      checkRows ls n ≠ .error (.invalidChar ch) := by
  intro ls
  induction ls with
  | nil => intro n ch _ h; cases h
  | cons s rest ih =>
    intro n ch hall h
    rw [checkRows] at h
    by_cases hlen : s.length ≠ n
    · rw [if_pos hlen] at h; cases h
    · rw [if_neg hlen] at h
      cases hfind : s.data.find? (fun ch => ¬ ALLOWED ch) with
      | some ch' =>
        rw [hfind] at h
        have hpred := List.find?_some hfind
        have hmem := List.mem_of_find?_eq_some hfind
        have hok : ALLOWED ch' = true := by
          have := hall s (List.mem_cons_self _ _)
          unfold isGridLine at this
          exact (List.all_eq_true.mp this) ch' hmem
        rw [hok] at hpred
        cases hpred
      | none =>
        rw [hfind] at h
        exact ih n ch (fun q hq => hall q (List.mem_cons_of_mem _ hq)) h

/-- Amended claim C4: no input ever produces the `InvalidSymbol` failure —
a line containing a character outside the alphabet is classified as a
numeric target line, so the in-grid character check never fires. -/
theorem invalidChar_unreachable (raw : List String) (ch : Char) :
    parse_instance raw ≠ .error (.invalidChar ch) := by
  intro h
  unfold parse_instance at h
  by_cases hg : gridLinesOf raw = []
  · rw [if_pos hg] at h
    exact ParseError.noConfusion (Except.error.inj h)
  · rw [if_neg hg] at h
    have hgrid : ∀ s ∈ gridLinesOf raw, isGridLine s = true :=
      fun s hs => (List.mem_filter.mp hs).2
    cases hcheck : checkRows (gridLinesOf raw) (gridLinesOf raw).length with
    | error e =>
      rw [hcheck] at h
      have h2 : (Except.error e :
          Except ParseError (List String × List Int × List Int)) =
          .error (.invalidChar ch) := h
      exact checkRows_no_invalidChar _ _ ch hgrid
        ((Except.error.inj h2) ▸ hcheck)
    | ok u =>
      cases u
      rw [hcheck] at h
      have h2 : (if (numberLinesOf raw).length ≠ 2 then
          (Except.error .targetLineCount :
            Except ParseError (List String × List Int × List Int))
          else
            match parse_targets ((numberLinesOf raw).getD 0 "") (gridLinesOf raw).length with
            | .error e => .error e
            | .ok column_targets =>
              match parse_targets ((numberLinesOf raw).getD 1 "") (gridLinesOf raw).length with
              | .error e => .error e
              | .ok row_targets =>
                .ok (gridLinesOf raw, column_targets, row_targets)) =
          .error (.invalidChar ch) := h
      by_cases hnl : (numberLinesOf raw).length ≠ 2
      · rw [if_pos hnl] at h2
        exact ParseError.noConfusion (Except.error.inj h2)
      · rw [if_neg hnl] at h2
        cases hct : parse_targets ((numberLinesOf raw).getD 0 "") (gridLinesOf raw).length with
        | error e =>
          rw [hct] at h2
          have h3 : (Except.error e :
              Except ParseError (List String × List Int × List Int)) =
              .error (.invalidChar ch) := h2
          rcases parse_targets_error_shape _ _ e hct with h' | h' <;>
            (rw [Except.error.inj h3] at h'; exact ParseError.noConfusion h')
        | ok ct =>
          rw [hct] at h2
          cases hrt : parse_targets ((numberLinesOf raw).getD 1 "") (gridLinesOf raw).length with
          | error e =>
            rw [hrt] at h2
            have h3 : (Except.error e :
                Except ParseError (List String × List Int × List Int)) =
                .error (.invalidChar ch) := h2
            rcases parse_targets_error_shape _ _ e hrt with h' | h' <;>
              (rw [Except.error.inj h3] at h'; exact ParseError.noConfusion h')
          | ok rt =>
            rw [hrt] at h2
            exact Except.noConfusion h2

/-- Counterexample for claim C4 as stated: an input whose intended 2×2 grid
contains the invalid character `X` in its second row is rejected as a
non-square grid (the bad row was classified as a target line), not with
`InvalidSymbol`. -/
theorem invalidChar_counterexample :
    parse_instance ["RL", "XL", "1 1", "1 1"] = .error .nonSquare := by rfl

/-! ### Rendering claim theorems -/

theorem head?_dropWhile_false {α : Type} (p : α → Bool) :
    ∀ (l : List α) (a : α), (l.dropWhile p).head? = some a → p a = false := by
  intro l
  induction l with
  | nil => intro a h; cases h
  | cons x xs ih =>
    intro a h
    rw [List.dropWhile_cons] at h
    by_cases hp : p x = true
    · rw [if_pos hp] at h
      exact ih a h
    · rw [if_neg hp] at h
      have : x = a := by simpa using h
      subst this
      simpa using hp

/-- Claim C8: the rendered text ends with exactly one newline — its last
character is a newline and the character before it, when present, is not a
newline (so there is no trailing blank line). -/
theorem render_single_final_newline (g : List (List Char))
    (column_targets row_targets : List Int) (ts : List Thermometer) :
    (render_facts g column_targets row_targets ts).data.getLast? = some '\n' ∧
    (render_facts g column_targets row_targets ts).data.dropLast.getLast? ≠
      some '\n' := by
  have hdata : (render_facts g column_targets row_targets ts).data =
      ((String.intercalate "\n" (renderLines g column_targets row_targets ts)).data.reverse.dropWhile
        Char.isWhitespace).reverse ++ ['\n'] := rfl
  rw [hdata]
  constructor
  · exact List.getLast?_concat _
  · rw [List.dropLast_concat]
    rw [List.getLast?_reverse]
    intro h
    have := head?_dropWhile_false Char.isWhitespace _ _ h
    simp at this

/-- Decidable test: the line has the shape `row(<r>).` for some `r < n`. -/
def isRowFactLine (n : Nat) (s : String) : Bool :=
  (List.range n).any (fun r => s == rowFact r)

/-- Decidable test: the line has the shape `col(<c>).` for some `c < n`. -/
def isColFactLine (n : Nat) (s : String) : Bool :=
  (List.range n).any (fun c => s == colFact c)

/-- Decidable test: the line has the shape `cell(<r>,<c>).` for a grid
coordinate. -/
def isCellFactLine (n : Nat) (s : String) : Bool :=
  (rowMajor n).any (fun q => s == cellFact q.1 q.2)

theorem data_take_front (p s : String) (k : Nat) (hk : k ≤ p.data.length) :
    (p ++ s).data.take k = p.data.take k := by
  have h : (p ++ s).data = p.data ++ s.data := rfl
  rw [h, List.take_append_eq_append_take, Nat.sub_eq_zero_of_le hk]
  simp

theorem take4_rowFact (r : Nat) :
    (rowFact r).data.take 4 = ['r', 'o', 'w', '('] := by
  unfold rowFact
  rw [data_take_front _ _ 4 (by decide)]
  rfl

theorem take4_colFact (c : Nat) :
    (colFact c).data.take 4 = ['c', 'o', 'l', '('] := by
  unfold colFact
  rw [data_take_front _ _ 4 (by decide)]
  rfl

theorem take4_cellFact (r c : Nat) :
    (cellFact r c).data.take 4 = ['c', 'e', 'l', 'l'] := by
  unfold cellFact
  rw [data_take_front _ _ 4 (by decide)]
  rfl

theorem take4_colTargetFact (i : Nat) (v : Int) :
    (colTargetFact i v).data.take 4 = ['c', 'o', 'l', '_'] := by
  unfold colTargetFact
  rw [data_take_front _ _ 4 (by decide)]
  rfl

theorem take4_rowTargetFact (i : Nat) (v : Int) :
    (rowTargetFact i v).data.take 4 = ['r', 'o', 'w', '_'] := by
  unfold rowTargetFact
  rw [data_take_front _ _ 4 (by decide)]
  rfl

theorem take4_constLine (n : Nat) :
    ("#const n=" ++ (toString n ++ ".")).data.take 4 = ['#', 'c', 'o', 'n'] := by
  rw [data_take_front _ _ 4 (by decide)]
  rfl

theorem thermoLines_shapes (t : Thermometer) :
    ∀ s ∈ thermoLines t, s = "" ∨ s.data.take 4 = ['t', 'h', 'e', 'r'] := by
  intro s hs
  unfold thermoLines at hs
  rcases List.mem_cons.mp hs with h | hs
  · right; subst h; rw [data_take_front _ _ 4 (by decide)]; rfl
  rcases List.mem_cons.mp hs with h | hs
  · right; subst h; rw [data_take_front _ _ 4 (by decide)]; rfl
  rcases List.mem_cons.mp hs with h | hs
  · right; subst h; rw [data_take_front _ _ 4 (by decide)]; rfl
  rcases List.mem_append.mp hs with h | h
  · obtain ⟨x, _, he⟩ := List.mem_map.mp h
    right; subst he; rw [data_take_front _ _ 4 (by decide)]; rfl
  · left
    simpa using h

theorem isRowFactLine_eq_false {n : Nat} {s : String}
    (h : s.data.take 4 ≠ ['r', 'o', 'w', '(']) : isRowFactLine n s = false := by
  unfold isRowFactLine
  rw [List.any_eq_false]
  intro r _ hbeq
  have he : s = rowFact r := by simpa using hbeq
  exact h (by rw [he]; exact take4_rowFact r)

theorem isColFactLine_eq_false {n : Nat} {s : String}
    (h : s.data.take 4 ≠ ['c', 'o', 'l', '(']) : isColFactLine n s = false := by
  unfold isColFactLine
  rw [List.any_eq_false]
  intro c _ hbeq
  have he : s = colFact c := by simpa using hbeq
  exact h (by rw [he]; exact take4_colFact c)

theorem isCellFactLine_eq_false {n : Nat} {s : String}
    (h : s.data.take 4 ≠ ['c', 'e', 'l', 'l']) : isCellFactLine n s = false := by
  unfold isCellFactLine
  rw [List.any_eq_false]
  intro q _ hbeq
  have he : s = cellFact q.1 q.2 := by simpa using hbeq
  exact h (by rw [he]; exact take4_cellFact q.1 q.2)

theorem isRowFactLine_self {n r : Nat} (h : r < n) :
    isRowFactLine n (rowFact r) = true := by
  unfold isRowFactLine
  rw [List.any_eq_true]
  exact ⟨r, List.mem_range.mpr h, by simp⟩

theorem isColFactLine_self {n c : Nat} (h : c < n) :
    isColFactLine n (colFact c) = true := by
  unfold isColFactLine
  rw [List.any_eq_true]
  exact ⟨c, List.mem_range.mpr h, by simp⟩

theorem isCellFactLine_self {n r c : Nat} (hr : r < n) (hc : c < n) :
    isCellFactLine n (cellFact r c) = true := by
  unfold isCellFactLine
  rw [List.any_eq_true]
  exact ⟨(r, c), mem_rowMajor.mpr ⟨hr, hc⟩, by simp⟩

theorem rowMajor_length (n : Nat) : (rowMajor n).length = n * n := by
  have h : ∀ m : Nat,
      ((List.range m).flatMap (fun r => (List.range n).map (fun c => (r, c)))).length
        = m * n := by
    intro m
    induction m with
    | zero => simp
    | succ m ih =>
      rw [List.range_succ, List.flatMap_append]
      simp [ih, Nat.succ_mul]
  exact h n

theorem countP_all_false {p : String → Bool} {l : List String}
    (h : ∀ s ∈ l, p s = false) : l.countP p = 0 :=
  List.countP_eq_zero.mpr (by simpa using h)

theorem countP_all_true {p : String → Bool} {l : List String}
    (h : ∀ s ∈ l, p s = true) : l.countP p = l.length :=
  List.countP_eq_length.mpr h

theorem filter_all_false {p : String → Bool} {l : List String}
    (h : ∀ s ∈ l, p s = false) : l.filter p = [] :=
  List.filter_eq_nil_iff.mpr (by simpa using h)

theorem filter_all_true {p : String → Bool} {l : List String}
    (h : ∀ s ∈ l, p s = true) : l.filter p = l :=
  List.filter_eq_self.mpr h

theorem thermoBlock_false {p : String → Bool} (ts : List Thermometer)
    (hblank : p "" = false)
    (hther : ∀ s : String, s.data.take 4 = ['t', 'h', 'e', 'r'] → p s = false) :
    ∀ s ∈ ts.flatMap thermoLines, p s = false := by
  intro s hs
  obtain ⟨t, _, hst⟩ := List.mem_flatMap.mp hs
  rcases thermoLines_shapes t s hst with h | h
  · rw [h]; exact hblank
  · exact hther s h

/-- Claim C7: the rendered lines contain exactly n `row(r).` lines, n
`col(c).` lines and n² `cell(r,c).` lines; every index 0..n-1 appears, and
the cell lines are exactly the row-major enumeration of the grid. -/
theorem render_fact_counts (g : List (List Char)) (ct rt : List Int)
    (ts : List Thermometer) :
    ((renderLines g ct rt ts).countP (isRowFactLine g.length) = g.length) ∧
    ((renderLines g ct rt ts).countP (isColFactLine g.length) = g.length) ∧
    ((renderLines g ct rt ts).countP (isCellFactLine g.length) =
      g.length * g.length) ∧
    (∀ r, r < g.length → rowFact r ∈ renderLines g ct rt ts) ∧
    (∀ c, c < g.length → colFact c ∈ renderLines g ct rt ts) ∧
    ((renderLines g ct rt ts).filter (isCellFactLine g.length) =
      (rowMajor g.length).map (fun q => cellFact q.1 q.2)) := by
  refine ⟨?_, ?_, ?_, ?_, ?_, ?_⟩
  · -- row count
    unfold renderLines
    simp only [List.countP_cons, List.countP_append]
    rw [countP_all_true (p := isRowFactLine g.length)
        (l := (List.range g.length).map rowFact) ?hrow,
      countP_all_false (p := isRowFactLine g.length)
        (l := (List.range g.length).map colFact) ?hcol,
      countP_all_false (p := isRowFactLine g.length)
        (l := (rowMajor g.length).map (fun q => cellFact q.1 q.2)) ?hcell,
      countP_all_false (p := isRowFactLine g.length)
        (l := ct.enum.map (fun iv => colTargetFact iv.1 iv.2)) ?hct,
      countP_all_false (p := isRowFactLine g.length)
        (l := rt.enum.map (fun iv => rowTargetFact iv.1 iv.2)) ?hrt,
      countP_all_false (p := isRowFactLine g.length)
        (l := ts.flatMap thermoLines) ?hth,
      isRowFactLine_eq_false (n := g.length)
        (s := "#const n=" ++ (toString g.length ++ ".")) (by rw [take4_constLine]; decide),
      isRowFactLine_eq_false (n := g.length) (s := "") (by decide)]
    case hrow =>
      intro s hs
      obtain ⟨r, hr, he⟩ := List.mem_map.mp hs
      rw [← he]
      exact isRowFactLine_self (List.mem_range.mp hr)
    case hcol =>
      intro s hs
      obtain ⟨c, _, he⟩ := List.mem_map.mp hs
      rw [← he]
      exact isRowFactLine_eq_false (by rw [take4_colFact]; decide)
    case hcell =>
      intro s hs
      obtain ⟨q, _, he⟩ := List.mem_map.mp hs
      rw [← he]
      exact isRowFactLine_eq_false (by rw [take4_cellFact]; decide)
    case hct =>
      intro s hs
      obtain ⟨iv, _, he⟩ := List.mem_map.mp hs
      rw [← he]
      exact isRowFactLine_eq_false (by rw [take4_colTargetFact]; decide)
    case hrt =>
      intro s hs
      obtain ⟨iv, _, he⟩ := List.mem_map.mp hs
      rw [← he]
      exact isRowFactLine_eq_false (by rw [take4_rowTargetFact]; decide)
    case hth =>
      exact thermoBlock_false ts (isRowFactLine_eq_false (by decide))
        (fun s hs => isRowFactLine_eq_false (by rw [hs]; decide))
    simp
  · -- col count
    unfold renderLines
    simp only [List.countP_cons, List.countP_append]
    rw [countP_all_false (p := isColFactLine g.length)
        (l := (List.range g.length).map rowFact) ?hrow,
      countP_all_true (p := isColFactLine g.length)
        (l := (List.range g.length).map colFact) ?hcol,
      countP_all_false (p := isColFactLine g.length)
        (l := (rowMajor g.length).map (fun q => cellFact q.1 q.2)) ?hcell,
      countP_all_false (p := isColFactLine g.length)
        (l := ct.enum.map (fun iv => colTargetFact iv.1 iv.2)) ?hct,
      countP_all_false (p := isColFactLine g.length)
        (l := rt.enum.map (fun iv => rowTargetFact iv.1 iv.2)) ?hrt,
      countP_all_false (p := isColFactLine g.length)
        (l := ts.flatMap thermoLines) ?hth,
      isColFactLine_eq_false (n := g.length)
        (s := "#const n=" ++ (toString g.length ++ ".")) (by rw [take4_constLine]; decide),
      isColFactLine_eq_false (n := g.length) (s := "") (by decide)]
    case hrow =>
      intro s hs
      obtain ⟨r, _, he⟩ := List.mem_map.mp hs
      rw [← he]
      exact isColFactLine_eq_false (by rw [take4_rowFact]; decide)
    case hcol =>
      intro s hs
      obtain ⟨c, hc, he⟩ := List.mem_map.mp hs
      rw [← he]
      exact isColFactLine_self (List.mem_range.mp hc)
    case hcell =>
      intro s hs
      obtain ⟨q, _, he⟩ := List.mem_map.mp hs
      rw [← he]
      exact isColFactLine_eq_false (by rw [take4_cellFact]; decide)
    case hct =>
      intro s hs
      obtain ⟨iv, _, he⟩ := List.mem_map.mp hs
      rw [← he]
      exact isColFactLine_eq_false (by rw [take4_colTargetFact]; decide)
    case hrt =>
      intro s hs
      obtain ⟨iv, _, he⟩ := List.mem_map.mp hs
      rw [← he]
      exact isColFactLine_eq_false (by rw [take4_rowTargetFact]; decide)
    case hth =>
      exact thermoBlock_false ts (isColFactLine_eq_false (by decide))
        (fun s hs => isColFactLine_eq_false (by rw [hs]; decide))
    simp
  · -- cell count
    unfold renderLines
    simp only [List.countP_cons, List.countP_append]
    rw [countP_all_false (p := isCellFactLine g.length)
        (l := (List.range g.length).map rowFact) ?hrow,
      countP_all_false (p := isCellFactLine g.length)
        (l := (List.range g.length).map colFact) ?hcol,
      countP_all_true (p := isCellFactLine g.length)
        (l := (rowMajor g.length).map (fun q => cellFact q.1 q.2)) ?hcell,
      countP_all_false (p := isCellFactLine g.length)
        (l := ct.enum.map (fun iv => colTargetFact iv.1 iv.2)) ?hct,
      countP_all_false (p := isCellFactLine g.length)
        (l := rt.enum.map (fun iv => rowTargetFact iv.1 iv.2)) ?hrt,
      countP_all_false (p := isCellFactLine g.length)
        (l := ts.flatMap thermoLines) ?hth,
      isCellFactLine_eq_false (n := g.length)
        (s := "#const n=" ++ (toString g.length ++ ".")) (by rw [take4_constLine]; decide),
      isCellFactLine_eq_false (n := g.length) (s := "") (by decide)]
    case hrow =>
      intro s hs
      obtain ⟨r, _, he⟩ := List.mem_map.mp hs
      rw [← he]
      exact isCellFactLine_eq_false (by rw [take4_rowFact]; decide)
    case hcol =>
      intro s hs
      obtain ⟨c, _, he⟩ := List.mem_map.mp hs
      rw [← he]
      exact isCellFactLine_eq_false (by rw [take4_colFact]; decide)
    case hcell =>
      intro s hs
      obtain ⟨q, hq, he⟩ := List.mem_map.mp hs
      rw [← he]
      obtain ⟨r, c⟩ := q
      obtain ⟨hr, hc⟩ := mem_rowMajor.mp hq
      exact isCellFactLine_self hr hc
    case hct =>
      intro s hs
      obtain ⟨iv, _, he⟩ := List.mem_map.mp hs
      rw [← he]
      exact isCellFactLine_eq_false (by rw [take4_colTargetFact]; decide)
    case hrt =>
      intro s hs
      obtain ⟨iv, _, he⟩ := List.mem_map.mp hs
      rw [← he]
      exact isCellFactLine_eq_false (by rw [take4_rowTargetFact]; decide)
    case hth =>
      exact thermoBlock_false ts (isCellFactLine_eq_false (by decide))
        (fun s hs => isCellFactLine_eq_false (by rw [hs]; decide))
    rw [List.length_map, rowMajor_length]
    simp
  · -- every row index appears
    intro r h
    unfold renderLines
    refine List.mem_cons_of_mem _ (List.mem_cons_of_mem _ (List.mem_append_left _ ?_))
    exact List.mem_map.mpr ⟨r, List.mem_range.mpr h, rfl⟩
  · -- every col index appears
    intro c h
    unfold renderLines
    refine List.mem_cons_of_mem _ (List.mem_cons_of_mem _ (List.mem_append_right _ ?_))
    refine List.mem_append_right _ (List.mem_append_left _ ?_)
    exact List.mem_map.mpr ⟨c, List.mem_range.mpr h, rfl⟩
  · -- the cell lines, in order, are the row-major enumeration
    unfold renderLines
    simp only [List.filter_append, List.filter_cons]
    rw [filter_all_false (p := isCellFactLine g.length)
        (l := (List.range g.length).map rowFact) ?hrow,
      filter_all_false (p := isCellFactLine g.length)
        (l := (List.range g.length).map colFact) ?hcol,
      filter_all_true (p := isCellFactLine g.length)
        (l := (rowMajor g.length).map (fun q => cellFact q.1 q.2)) ?hcell,
      filter_all_false (p := isCellFactLine g.length)
        (l := ct.enum.map (fun iv => colTargetFact iv.1 iv.2)) ?hct,
      filter_all_false (p := isCellFactLine g.length)
        (l := rt.enum.map (fun iv => rowTargetFact iv.1 iv.2)) ?hrt,
      filter_all_false (p := isCellFactLine g.length)
        (l := ts.flatMap thermoLines) ?hth,
      isCellFactLine_eq_false (n := g.length)
        (s := "#const n=" ++ (toString g.length ++ ".")) (by rw [take4_constLine]; decide),
      isCellFactLine_eq_false (n := g.length) (s := "") (by decide)]
    case hrow =>
      intro s hs
      obtain ⟨r, _, he⟩ := List.mem_map.mp hs
      rw [← he]
      exact isCellFactLine_eq_false (by rw [take4_rowFact]; decide)
    case hcol =>
      intro s hs
      obtain ⟨c, _, he⟩ := List.mem_map.mp hs
      rw [← he]
      exact isCellFactLine_eq_false (by rw [take4_colFact]; decide)
    case hcell =>
      intro s hs
      obtain ⟨q, hq, he⟩ := List.mem_map.mp hs
      rw [← he]
      obtain ⟨r, c⟩ := q
      obtain ⟨hr, hc⟩ := mem_rowMajor.mp hq
      exact isCellFactLine_self hr hc
    case hct =>
      intro s hs
      obtain ⟨iv, _, he⟩ := List.mem_map.mp hs
      rw [← he]
      exact isCellFactLine_eq_false (by rw [take4_colTargetFact]; decide)
    case hrt =>
      intro s hs
      obtain ⟨iv, _, he⟩ := List.mem_map.mp hs
      rw [← he]
      exact isCellFactLine_eq_false (by rw [take4_rowTargetFact]; decide)
    case hth =>
      exact thermoBlock_false ts (isCellFactLine_eq_false (by decide))
        (fun s hs => isCellFactLine_eq_false (by rw [hs]; decide))
    simp

end ThermoEnc

namespace ThermoEnc

theorem cells_partition_w :
    extract_thermometers [['U']] =
      .ok [⟨0, 0, "up", [(1, 0, 0)]⟩] ∧
    (allCellCoords [⟨0, 0, "up", [(1, 0, 0)]⟩]).countP
      (fun q => decide (q = (0, 0))) = 1 := by
  constructor
  · rfl
  · have := cells_partition [['U']] (by decide) [⟨0, 0, "up", [(1, 0, 0)]⟩]
      rfl 0 0
    simpa using this

theorem cells_chain_w :
    ∃ d : Int × Int,
      nameDelta (Thermometer.mk 0 0 "up" [(1, 0, 0)]).direction = some d ∧
      (Thermometer.mk 0 0 "up" [(1, 0, 0)]).cells ≠ [] ∧
      (∀ k (hk : k < (Thermometer.mk 0 0 "up" [(1, 0, 0)]).cells.length),
        ((Thermometer.mk 0 0 "up" [(1, 0, 0)]).cells.get ⟨k, hk⟩).1 = k + 1) ∧
      (∀ k (hk : k + 1 < (Thermometer.mk 0 0 "up" [(1, 0, 0)]).cells.length),
        (((Thermometer.mk 0 0 "up" [(1, 0, 0)]).cells.get ⟨k + 1, hk⟩).2.1 : Int) =
          (((Thermometer.mk 0 0 "up" [(1, 0, 0)]).cells.get
            ⟨k, Nat.lt_of_succ_lt hk⟩).2.1 : Int) + d.1 ∧
        (((Thermometer.mk 0 0 "up" [(1, 0, 0)]).cells.get ⟨k + 1, hk⟩).2.2 : Int) =
          (((Thermometer.mk 0 0 "up" [(1, 0, 0)]).cells.get
            ⟨k, Nat.lt_of_succ_lt hk⟩).2.2 : Int) + d.2) :=
  cells_chain [['U']] (by decide) [⟨0, 0, "up", [(1, 0, 0)]⟩] rfl
    ⟨0, 0, "up", [(1, 0, 0)]⟩ (List.mem_singleton_self _)

theorem uncovered_iff_w :
    ((0 : Nat), (1 : Nat)) ∈ rowMajor 2 ∧
    ((0 : Nat), (1 : Nat)) ∉ [((0 : Nat), (0 : Nat))] :=
  (uncovered_iff [['U', 'v'], ['^', 'v']] (by decide)
    [⟨0, 0, "up", [(1, 0, 0)]⟩] [(0, 0)] rfl).2.1 0 1 rfl

theorem adjacent_bulbs_w :
    extract_thermometers [['R', 'L'], ['R', 'L']] =
      .ok [⟨0, 0, "right", [(1, 0, 0)]⟩, ⟨0, 1, "left", [(1, 0, 1)]⟩,
        ⟨1, 0, "right", [(1, 1, 0)]⟩, ⟨1, 1, "left", [(1, 1, 1)]⟩] ∧
    (∃ t ∈ [⟨0, 0, "right", [(1, 0, 0)]⟩, ⟨0, 1, "left", [(1, 0, 1)]⟩,
        ⟨1, 0, "right", [(1, 1, 0)]⟩, (⟨1, 1, "left", [(1, 1, 1)]⟩ : Thermometer)],
      t.bulb_row = 0 ∧ t.bulb_col = 0 ∧ t.cells.length = 1) ∧
    (∃ t ∈ [⟨0, 0, "right", [(1, 0, 0)]⟩, ⟨0, 1, "left", [(1, 0, 1)]⟩,
        ⟨1, 0, "right", [(1, 1, 0)]⟩, (⟨1, 1, "left", [(1, 1, 1)]⟩ : Thermometer)],
      t.bulb_row = 0 ∧ t.bulb_col = 1 ∧ t.cells.length = 1) :=
  adjacent_bulbs [['R', 'L'], ['R', 'L']] (by decide)
    [⟨0, 0, "right", [(1, 0, 0)]⟩, ⟨0, 1, "left", [(1, 0, 1)]⟩,
      ⟨1, 0, "right", [(1, 1, 0)]⟩, ⟨1, 1, "left", [(1, 1, 1)]⟩]
    [(1, 1), (1, 0), (0, 1), (0, 0)] rfl (by decide)
    0 0 0 1 (0, 1) (0, -1)
    (by decide) (by decide) (by decide) (by decide)
    (by decide) (by decide) (by decide) (by decide)
    (by constructor <;> decide) (by constructor <;> decide)

theorem parse_targets_spec_w :
    parse_targets "1 a 3" 3 = .error .invalidTargetValue ∧
    parse_targets "1 2 3" 2 = .error .targetCountMismatch ∧
    (∃ vs, parse_targets "4 -5 6" 3 = .ok vs ∧ vs.length = 3 ∧
      parseInts? (pySplit "4 -5 6") = some vs) :=
  ⟨(parse_targets_spec "1 a 3" 3).1 (by decide),
   (parse_targets_spec "1 2 3" 2).2.1 (by decide) (by decide),
   (parse_targets_spec "4 -5 6" 3).2.2 (by decide) (by decide)⟩

theorem render_fact_counts_w :
    rowFact 0 ∈ renderLines [['U']] [0] [0] [⟨0, 0, "up", [(1, 0, 0)]⟩] ∧
    (renderLines [['U']] [0] [0] [⟨0, 0, "up", [(1, 0, 0)]⟩]).countP
      (isRowFactLine 1) = 1 :=
  ⟨(render_fact_counts [['U']] [0] [0] [⟨0, 0, "up", [(1, 0, 0)]⟩]).2.2.2.1
      0 (by decide),
   (render_fact_counts [['U']] [0] [0] [⟨0, 0, "up", [(1, 0, 0)]⟩]).1⟩

theorem overlapping_unreachable_w :
    extract_thermometers [['U']] ≠ .error (.overlapping 0 0) :=
  overlapping_unreachable [['U']] (by decide) 0 0

theorem extraction_terminates_w :
    walkAux [['U']] 1 (-1, 0) 1 [] 0 0 1 [] ≠ .error .fuelExhausted ∧
    extract_thermometers [['U']] ≠ .error .fuelExhausted :=
  ⟨(extraction_terminates [['U']] (by decide)).1 (-1, 0) [] 0 0 1 []
      (by decide) (by decide) (by decide),
   (extraction_terminates [['U']] (by decide)).2.2⟩

end ThermoEnc
